import Mathlib

/-!
# rest-easy: route groups, middleware chaining, handler adapter

A shallow embedding of the Go sources `router.go`, `pkg/api/server.go`,
`handlers.go`, `utils.go` and `examples/full/main.go`.

Conventions of the embedding

* Go strings are Lean strings; `fmt.Sprintf("%s%s", a, b)` is `a ++ b`.
* A `*http.ServeMux` is a pointer: it is an identifier (`MuxId`) into a store
  that keeps, for every mux, the `(pattern, handler)` pairs registered on it, in
  registration order. Whether `ServeMux.Handle` accepts a pattern (it panics on a
  malformed pattern and on one that conflicts with a registered pattern) is decided
  by `net/http`; that decision is a parameter (`MuxRules`) of every function that
  registers, so that what is proved holds whatever the library decides.
* An `http.Handler` is a value of an arbitrary type `H`; a middleware is a
  function `H → H`.
* A Go panic is an explicit outcome.
-/

namespace RestEasy

/-! ## Sub-dispatchers -/

/-- Identifier of an allocated `*http.ServeMux`; `0` is the root mux of the server. -/
abbrev MuxId := Nat

/-- Store of the group muxes: for each mux the `(pattern, handler)` pairs registered
on it with `ServeMux.Handle`, oldest first. -/
abbrev MuxStore (H : Type) := MuxId → List (String × H)

/-- The decision of `net/http` on a call `mux.Handle(pattern, h)`: given the patterns
already registered on the mux and the new pattern, `true` when the pattern is
registered and `false` when the call panics (malformed or conflicting pattern). -/
abbrev MuxRules := List String → String → Bool

/-- A Go panic raised during the configuration phase. -/
inductive Panic where
  /-- The `panic(fmt.Sprintf("invalid pattern: %s", pattern))` of router.go. -/
  | invalidPattern (pattern : String)
  /-- A panic raised inside `ServeMux.Handle` for the given pattern. -/
  | serveMux (pattern : String)
deriving DecidableEq

/-- Effect of `mux.Handle(pattern, handler)` on the store: one more registration on
`mux` when `net/http` accepts the pattern, `none` when the call panics. -/
def MuxStore.Handle {H : Type} (rules : MuxRules) (st : MuxStore H) (mux : MuxId)
    (pattern : String) (handler : H) : Option (MuxStore H) :=
  if rules ((st mux).map Prod.fst) pattern then
    some (fun i => if i = mux then st i ++ [(pattern, handler)] else st i)
  else none

/-! ## router.go -/

/-- Go `Router`: a group of routes with shared prefix and middlewares. -/
structure Router (H : Type) where
  parentMux : MuxId
  Mux : MuxId
  prefix_ : String
  parentPrefix : String
  middlewares : List (H → H)

/-- Go `strings.SplitN(s, " ", 2)` on the characters of `s`: `none` when `s` has no
space, otherwise the text before the first space and the text after it. -/
def cutAtSpace : List Char → Option (List Char × List Char)
  | [] => none
  | c :: cs =>
    if c = ' ' then some ([], cs)
    else match cutAtSpace cs with
      | none => none
      | some (a, b) => some (c :: a, b)

/-- Go `strings.SplitN(pattern, " ", 2)`. -/
def SplitN2 (pattern : String) : List String :=
  match cutAtSpace pattern.data with
  | none => [pattern]
  | some (a, b) => [String.mk a, String.mk b]

/-- Go `(*Router).fullPath`. -/
def Router.fullPath {H : Type} (r : Router H) (path : String) : String :=
  if r.parentPrefix ≠ "" then r.parentPrefix ++ r.prefix_ ++ path
  else r.prefix_ ++ path

/-- Outcome of a registration call: the panic if the call panicked, and the router
and the mux store as the call left them. -/
structure Registered (H : Type) where
  panicked : Option Panic
  router : Router H
  store : MuxStore H

/-- Go `(*Router).HandleFunc`: the handler is wrapped by ranging over
`r.middlewares` front to back, `finalHandler = middleware(finalHandler)`, and
`r.Mux.Handle(finalPattern, finalHandler)` is called. -/
def Router.HandleFunc {H : Type} (r : Router H) (rules : MuxRules) (st : MuxStore H)
    (pattern : String) (handler : H) : Registered H :=
  match SplitN2 pattern with
  | [method, path] =>
    let fullPath := r.fullPath path
    let finalHandler := r.middlewares.foldl (fun h middleware => middleware h) handler
    let finalPattern := method ++ " " ++ fullPath
    match st.Handle rules r.Mux finalPattern finalHandler with
    | some st' => { panicked := none, router := r, store := st' }
    | none => { panicked := some (.serveMux finalPattern), router := r, store := st }
  | _ => { panicked := some (.invalidPattern pattern), router := r, store := st }

/-- Go `(*Router).Handle`. `mdws := r.middlewares` copies the slice header only, so
`slices.Reverse(mdws)` reverses the backing array that `r.middlewares` also points
to: the router's own list is reversed by the call, before `r.Mux.Handle` is
reached. -/
def Router.Handle {H : Type} (r : Router H) (rules : MuxRules) (st : MuxStore H)
    (pattern : String) (handler : H) : Registered H :=
  match SplitN2 pattern with
  | [method, path] =>
    let fullPath := r.fullPath path
    let mdws := r.middlewares.reverse
    let r' : Router H := { r with middlewares := mdws }
    let handler' := mdws.foldl (fun h middleware => middleware h) handler
    let finalPattern := method ++ " " ++ fullPath
    match st.Handle rules r.Mux finalPattern handler' with
    | some st' => { panicked := none, router := r', store := st' }
    | none => { panicked := some (.serveMux finalPattern), router := r', store := st }
  | _ => { panicked := some (.invalidPattern pattern), router := r, store := st }

/-- Go `(*Router).Use`. -/
def Router.Use {H : Type} (r : Router H) (middleware : H → H) : Router H :=
  { r with middlewares := r.middlewares ++ [middleware] }

/-! ## pkg/api/server.go -/

/-- Go `Server`, the fields the configuration phase touches. `RootMux` is kept as the
`(pattern, groupMux)` pairs registered on the root mux, oldest first; `nextMux` is the
identifier the next `http.NewServeMux()` returns. -/
structure Server (H : Type) where
  port : Nat
  RootMux : List (String × MuxId)
  routers : List (Router H)
  nextMux : MuxId

/-- Go `NewServer()` without options. -/
def NewServer (H : Type) : Server H :=
  { port := 8080, RootMux := [], routers := [], nextMux := 1 }

/-- Go `(*Server).Group`: returns the server with the new router recorded and the
router handed back to the caller. -/
def Server.Group {H : Type} (s : Server H) (prefix_ : String) (parent : Option (Router H)) :
    Server H × Router H :=
  let groupMux := s.nextMux
  let mountMux : MuxId := match parent with
    | some p => p.Mux
    | none => 0
  let parentPrefix := match parent with
    | some p => p.prefix_
    | none => ""
  let rtr : Router H :=
    { parentMux := mountMux, Mux := groupMux, prefix_ := prefix_,
      parentPrefix := parentPrefix, middlewares := [] }
  ({ s with routers := s.routers ++ [rtr], nextMux := s.nextMux + 1 }, rtr)

/-- Characters of an HTTP token, of which a method in a pattern must consist. -/
def isTokenChar (c : Char) : Bool :=
  c.isAlphanum || ['!', '#', '$', '%', '&', '*', '+', '-', '.', '^', '_', '|', '~',
    Char.ofNat 39, Char.ofNat 96].contains c

/-- The segments of a path, cut at every `/`. -/
def splitSlash : List Char → List (List Char)
  | [] => [[]]
  | c :: cs =>
    match splitSlash cs with
    | [] => [[]]
    | seg :: segs => if c = '/' then [] :: seg :: segs else (c :: seg) :: segs

/-- Some of the checks `net/http` makes in `ServeMux.Handle`, enough for the examples
below: the pattern is not empty; what precedes the first space or tab, if there is
one, is a method made of token characters; the rest has a `/`, with no brace before
it; a path segment with an opening brace is a wildcard in braces; and the pattern is not
one already registered on the mux. `net/http` rejects more patterns than these. -/
def exampleRules : MuxRules := fun registered pattern =>
  let cs := pattern.data
  let method := cs.takeWhile (fun c => c ≠ ' ' ∧ c ≠ '\t')
  let found := method.length < cs.length
  let rest := if found then (cs.drop (method.length + 1)).dropWhile (fun c => c = ' ' ∨ c = '\t')
    else cs
  let method := if found then method else []
  let host := rest.takeWhile (fun c => c ≠ '/')
  let path := rest.drop host.length
  pattern ≠ "" && method.all isTokenChar && path ≠ [] && !host.contains '{' &&
    (splitSlash path).all (fun seg =>
      !seg.contains '{' || (seg.head? = some '{' && seg.getLast? = some '}')) &&
    !registered.contains pattern

/-- First middleware added with `Use`. -/
def m1 (h : String) : String := "m1(" ++ h ++ ")"

/-- Second middleware added with `Use`. -/
def m2 (h : String) : String := "m2(" ++ h ++ ")"

/-- A store in which nothing has been registered yet. -/
def emptyStore (H : Type) : MuxStore H := fun _ => []

/-- Router returned by `s.Group("/v1", nil)` on a new server, after `Use(m1)` and `Use(m2)`. -/
def v1Group : Router String :=
  (((NewServer String).Group "/v1" none).2.Use m1).Use m2

/-- Router returned by `s.Group("/internal", nil)` on a new server. -/
def internalGroup : Router String := ((NewServer String).Group "/internal" none).2

/-- Router returned by `s.Group("/admin", internalGroup)`. -/
def internalAdminGroup : Router String :=
  (((NewServer String).Group "/internal" none).1.Group "/admin" (some internalGroup)).2

/-- Router returned by a third level of nesting, `s.Group("/audit", internalAdminGroup)`. -/
def internalAdminAuditGroup : Router String :=
  ((((NewServer String).Group "/internal" none).1.Group "/admin" (some internalGroup)).1.Group
    "/audit" (some internalAdminGroup)).2

deriving instance DecidableEq for Except

/-- Go `http.Header`, as a list of key and value. -/
abbrev Header := List (String × String)

/-- Go `Header.Set` for a key in canonical form. -/
def Header.Set (h : Header) (key value : String) : Header :=
  h.filter (fun kv => kv.1 ≠ key) ++ [(key, value)]

/-- State of a `net/http` response. `status = none` until the status line is written;
`head` tells that the request is a HEAD request; `interim` lists the informational
responses sent so far. -/
structure ResponseWriter where
  header : Header
  status : Option Int
  sentHeader : Header
  body : String
  head : Bool := false
  interim : List Int := []
deriving DecidableEq

/-- The response writer a handler receives for a new request other than HEAD. -/
def ResponseWriter.fresh : ResponseWriter :=
  { header := [], status := none, sentHeader := [], body := "" }

/-- The response writer a handler receives for a new request with the given method. -/
def ResponseWriter.forRequest (method : String) : ResponseWriter :=
  { header := [], status := none, sentHeader := [], body := "", head := decide (method = "HEAD") }

/-- Go `(*response).WriteHeader`: a call after the status line is written is ignored
(logged as superfluous); a code outside 100..999 panics; an informational code (1xx
other than 101) is sent as an interim response and leaves the final status open;
otherwise the status line is fixed together with the headers set so far. -/
def ResponseWriter.WriteHeader (w : ResponseWriter) (code : Int) : Except String ResponseWriter :=
  match w.status with
  | some _ => .ok w
  | none =>
    if code < 100 ∨ code > 999 then .error ("invalid WriteHeader code " ++ toString code)
    else if 100 ≤ code ∧ code ≤ 199 ∧ code ≠ 101 then .ok { w with interim := w.interim ++ [code] }
    else .ok { w with status := some code, sentHeader := w.header }

/-- Go `bodyAllowedForStatus`: no body with a 1xx, 204 or 304 status. -/
def bodyAllowedForStatus (status : Int) : Bool :=
  if 100 ≤ status ∧ status ≤ 199 then false
  else if status = 204 then false
  else if status = 304 then false
  else true

/-- Go `(*response).Write`: writes the status line with 200 first if none was written;
the data is then dropped when the status allows no body (`ErrBodyNotAllowed`) or the
request is a HEAD request, and appended to the body otherwise. -/
def ResponseWriter.Write (w : ResponseWriter) (data : String) : Except String ResponseWriter :=
  match (if w.status.isNone then w.WriteHeader 200 else .ok w) with
  | .error e => .error e
  | .ok w' =>
    match w'.status with
    | none => .ok w'
    | some status =>
      if bodyAllowedForStatus status ∧ w'.head = false then .ok { w' with body := w'.body ++ data }
      else .ok w'

/-- Go `w.Header().Set(key, value)`. -/
def ResponseWriter.SetHeader (w : ResponseWriter) (key value : String) : ResponseWriter :=
  { w with header := w.header.Set key value }

/-- Go `http.Error(w, error, code)`: plain-text content type, `nosniff`, the status
code, then the message followed by a newline (`fmt.Fprintln`). -/
def Error (w : ResponseWriter) (error : String) (code : Int) : Except String ResponseWriter :=
  let w1 := (w.SetHeader "Content-Type" "text/plain; charset=utf-8").SetHeader
    "X-Content-Type-Options" "nosniff"
  match w1.WriteHeader code with
  | .error e => .error e
  | .ok w2 => w2.Write (error ++ "\n")

/-! ## encoding/json -/

/-- Go `const hex = "0123456789abcdef"`, indexed. -/
def hexDigit (n : Nat) : Char := "0123456789abcdef".data.getD n '0'

/-- Escape of one character inside a JSON string, as `json.Encoder` writes it with HTML
escaping on (its default). -/
def escapeChar (c : Char) : List Char :=
  if c = '"' then ['\\', '"']
  else if c = '\\' then ['\\', '\\']
  else if c.toNat = 8 then ['\\', 'b']
  else if c.toNat = 12 then ['\\', 'f']
  else if c = '\n' then ['\\', 'n']
  else if c = '\r' then ['\\', 'r']
  else if c = '\t' then ['\\', 't']
  else if c.toNat < 32 ∨ c = '<' ∨ c = '>' ∨ c = '&' then
    ['\\', 'u', '0', '0', hexDigit (c.toNat / 16), hexDigit (c.toNat % 16)]
  else if c.toNat = 0x2028 then "\\u2028".data
  else if c.toNat = 0x2029 then "\\u2029".data
  else [c]

/-- JSON encoding of a Go string. -/
def jsonString (s : String) : String :=
  "\"" ++ String.mk (s.data.foldr (fun c acc => escapeChar c ++ acc) []) ++ "\""

/-- Go `json.NewEncoder(w).Encode(v)` once `v` is marshalled: on success the JSON text
and a newline are written in one `Write`; on a marshalling error nothing is written
and the error is returned (the callers here drop it). -/
def Encode (w : ResponseWriter) (marshalled : Except String String) : Except String ResponseWriter :=
  match marshalled with
  | .error _ => .ok w
  | .ok text => w.Write (text ++ "\n")

/-! ### Reading a JSON string (RFC 8259)

The reader side of the JSON string grammar, independent of the encoder above: it is
what a client applies to the text of a string member. -/

/-- Value of a hexadecimal digit. -/
def hexValue (c : Char) : Option Nat :=
  if 48 ≤ c.toNat ∧ c.toNat ≤ 57 then some (c.toNat - 48)
  else if 97 ≤ c.toNat ∧ c.toNat ≤ 102 then some (c.toNat - 87)
  else if 65 ≤ c.toNat ∧ c.toNat ≤ 70 then some (c.toNat - 55)
  else none

/-- The character a two-character escape stands for. -/
def unescapeSimple (c : Char) : Option Char :=
  if c = '"' then some '"'
  else if c = '\\' then some '\\'
  else if c = '/' then some '/'
  else if c = 'b' then some (Char.ofNat 8)
  else if c = 'f' then some (Char.ofNat 12)
  else if c = 'n' then some '\n'
  else if c = 'r' then some '\r'
  else if c = 't' then some '\t'
  else none

/-- Reads one character of a JSON string, escaped or not, and returns it with the text
that follows; `none` at a quote, at a control character and at a malformed escape.
A `\u` escape is read as the character with that code (no surrogate pairs). -/
def readChar : List Char → Option (Char × List Char)
  | [] => none
  | c :: rest =>
    if c = '\\' then
      match rest with
      | [] => none
      | e :: rest1 =>
        if e = 'u' then
          match rest1 with
          | a :: b :: c2 :: d :: rest2 =>
            match hexValue a, hexValue b, hexValue c2, hexValue d with
            | some x3, some x2, some x1, some x0 =>
              if Nat.isValidChar (((x3 * 16 + x2) * 16 + x1) * 16 + x0) then
                some (Char.ofNat (((x3 * 16 + x2) * 16 + x1) * 16 + x0), rest2)
              else none
            | _, _, _, _ => none
          | _ => none
        else
          match unescapeSimple e with
          | some ch => some (ch, rest1)
          | none => none
    else if c = '"' ∨ c.toNat < 32 then none
    else some (c, rest)

/-- Reads the characters of a JSON string after its opening quote, up to the closing
quote, which must be the last character; `none` when the text is not a JSON string.
The first argument bounds the number of characters read. -/
def unquoteChars : Nat → List Char → Option (List Char)
  | 0, _ => none
  | fuel + 1, text =>
    if text = ['"'] then some []
    else
      match readChar text with
      | none => none
      | some (ch, rest) =>
        match unquoteChars fuel rest with
        | some tail => some (ch :: tail)
        | none => none

/-- The Go string that a JSON string text denotes. -/
def jsonUnquote (text : String) : Option String :=
  match text.data with
  | [] => none
  | c :: rest =>
    if c = '"' then (unquoteChars (rest.length + 1) rest).map String.mk else none

/-! ## handlers.go -/

/-- Go `ErrorResponse`. -/
structure ErrorResponse where
  StatusCode : Int
  Message : String
  Code : Int
deriving DecidableEq

/-- Go `(*ErrorResponse).Error`. -/
def ErrorResponse.Error (e : ErrorResponse) : String := e.Message

/-- JSON encoding of an `ErrorResponse` by its struct tags: `StatusCode` is `json:"-"`,
`Message` is `json:"message"`, `Code` is `json:"code,omitempty"`. -/
def ErrorResponse.marshal (e : ErrorResponse) : String :=
  "\x7b\"message\":" ++ jsonString e.Message ++
    (if e.Code ≠ 0 then ",\"code\":" ++ toString e.Code else "") ++ "\x7d"

/-- JSON encoding of `map[string]string{"error": message}`. -/
def marshalErrorMap (message : String) : String :=
  "\x7b\"error\":" ++ jsonString message ++ "\x7d"

/-- A Go `error` value as `NewHandler` distinguishes it: a `*ErrorResponse`, or any
other error with its message. -/
inductive GoError where
  | errorResponse (e : ErrorResponse)
  | other (message : String)
deriving DecidableEq

/-- Go `err.Error()`. -/
def GoError.Error : GoError → String
  | .errorResponse e => e.Error
  | .other message => message

/-- Go `context.Context` of a request: its request-scoped values. -/
abbrev Context := List (String × String)

/-- Go `*http.Request`, the parts the adapter reads. -/
structure Request where
  Method : String
  Path : String
  Body : String
  Context : Context
deriving DecidableEq

/-- Go `FuncReq`; `Body` is `nil` until a body is decoded into it. -/
structure FuncReq (B : Type) where
  Body : Option B
  Request : Request
  HasBody : Bool

/-- Go `HandlerFunc[In, Out]`: a business function. It may have effects, which are its
action on a state `σ`; it returns an output or an error. -/
abbrev HandlerFunc (σ B Out : Type) := Context → FuncReq B → σ → Except GoError Out × σ

/-- The first part of the handler that `NewHandler` returns (handlers.go, lines 30 to
41): `funcIn` is created with the request, and for POST, PUT and PATCH the body is
decoded into `funcIn.Body`; a decode error is the result. -/
def decodeRequest {B : Type} (decode : String → Except String B) (r : Request) :
    Except String (FuncReq B) :=
  let funcIn : FuncReq B := { Body := none, Request := r, HasBody := false }
  if r.Method = "POST" ∨ r.Method = "PUT" ∨ r.Method = "PATCH" then
    match decode r.Body with
    | .error err => .error err
    | .ok b => .ok { funcIn with Body := some b }
  else .ok funcIn

/-- Go `NewHandler(f)` of handlers.go, as the function `ServeHTTP` of the returned
handler. `decode` is `json.NewDecoder(r.Body).Decode` on the request body and
`marshal` is `json.Marshal` at type `Out`. The result is the response writer (or the
panic message) and the state the business function left. -/
def NewHandler {σ B Out : Type} (decode : String → Except String B)
    (marshal : Out → Except String String) (f : HandlerFunc σ B Out)
    (w : ResponseWriter) (r : Request) (s : σ) : Except String ResponseWriter × σ :=
  match decodeRequest decode r with
  | .error err => (Error w err 400, s)
  | .ok funcIn =>
    match f r.Context funcIn s with
    | (.error (.errorResponse e), s') =>
      (match w.WriteHeader e.StatusCode with
        | .error p => .error p
        | .ok w1 => Encode (w1.SetHeader "Content-Type" "application/json") (.ok e.marshal), s')
    | (.error err, s') =>
      let message := err.Error
      (match w.WriteHeader 500 with
        | .error p => .error p
        | .ok w1 =>
          match Encode (w1.SetHeader "Content-Type" "application/json")
              (.ok (marshalErrorMap message)) with
          | .error p => .error p
          | .ok w2 => Error w2 err.Error 500, s')
    | (.ok out, s') =>
      if funcIn.HasBody then
        (Encode (w.SetHeader "Content-Type" "application/json") (marshal out), s')
      else (.ok w, s')

/-! ## examples/full/main.go -/

/-- Go `UserV2`. -/
structure UserV2 where
  ID : Int
  Name : String
  Email : String
  Version : String
deriving DecidableEq

/-- JSON encoding of a `UserV2` by its struct tags. -/
def UserV2.marshal (u : UserV2) : String :=
  "\x7b\"id\":" ++ toString u.ID ++ ",\"name\":" ++ jsonString u.Name ++
    ",\"email\":" ++ jsonString u.Email ++ ",\"version\":" ++ jsonString u.Version ++ "\x7d"

/-- JSON encoding of a non-nil `[]UserV2`. -/
def marshalUsersV2 (users : List UserV2) : Except String String :=
  .ok ("[" ++ ",".intercalate (users.map UserV2.marshal) ++ "]")

/-- Go `getUsersV2Handler`. -/
def getUsersV2Handler : HandlerFunc Unit Unit (List UserV2) :=
  fun _ _ s =>
    (.ok [{ ID := 1, Name := "Alice", Email := "alice@example.com", Version := "v2" },
          { ID := 2, Name := "Bob", Email := "bob@example.com", Version := "v2" }], s)

/-- A business function that counts its invocations and fails with a plain error. -/
def failingHandler (message : String) : HandlerFunc Nat Unit Unit :=
  fun _ _ n => (.error (.other message), n + 1)

/-- A business function that counts its invocations and fails with a structured error. -/
def structuredFailingHandler (e : ErrorResponse) : HandlerFunc Nat Unit Unit :=
  fun _ _ n => (.error (.errorResponse e), n + 1)

/-- A business function that reads its input: it counts its invocations, answers the
path "/users/1" and fails with a structured 404 for any other path, the path being
quoted in the message. -/
def findUserHandler : HandlerFunc Nat Unit Unit :=
  fun _ funcIn n =>
    if funcIn.Request.Path = "/users/1" then (.ok (), n + 1)
    else (.error (.errorResponse
      { StatusCode := 404, Message := "no user at <" ++ funcIn.Request.Path ++ ">", Code := 0 }),
      n + 1)

/-- A request decoder for the examples: the body `{}` decodes, anything else fails the
way `encoding/json` reports an empty body. -/
def decodeUnit (body : String) : Except String Unit :=
  if body = "\x7b\x7d" then .ok () else .error "EOF"

/-- A marshaller for the examples with no output. -/
def marshalUnit (_ : Unit) : Except String String := .ok "\x7b\x7d"

/-! ## utils.go -/

/-- The methods of the `http.ResponseWriter` interface that `CustomResponseWriter`
touches, for an arbitrary implementation with state `U`. -/
structure ResponseWriterImpl (U : Type) where
  WriteHeader : U → Int → U
  Write : U → String → U

/-- Go `CustomResponseWriter`: wraps an `http.ResponseWriter` to capture the status code. -/
structure CustomResponseWriter (U : Type) where
  ResponseWriter : U
  statusCode : Int

/-- Go `NewResponseWriter`. -/
def NewResponseWriter {U : Type} (w : U) : CustomResponseWriter U :=
  { ResponseWriter := w, statusCode := 200 }

/-- Go `(*CustomResponseWriter).WriteHeader`. -/
def CustomResponseWriter.WriteHeader {U : Type} (impl : ResponseWriterImpl U)
    (rw : CustomResponseWriter U) (code : Int) : CustomResponseWriter U :=
  { statusCode := code, ResponseWriter := impl.WriteHeader rw.ResponseWriter code }

/-- `Write` on a `CustomResponseWriter` is the promoted method of the embedded
`http.ResponseWriter`: it goes to the underlying writer and leaves `statusCode` alone. -/
def CustomResponseWriter.Write {U : Type} (impl : ResponseWriterImpl U)
    (rw : CustomResponseWriter U) (data : String) : CustomResponseWriter U :=
  { rw with ResponseWriter := impl.Write rw.ResponseWriter data }

/-- Go `(*CustomResponseWriter).StatusCode`. -/
def CustomResponseWriter.StatusCode {U : Type} (rw : CustomResponseWriter U) : Int :=
  rw.statusCode

/-- A call that a handler makes on its response writer. -/
inductive Call where
  | WriteHeader (code : Int)
  | Write (data : String)
deriving DecidableEq

/-- The calls made one after the other on a `CustomResponseWriter`. -/
def CustomResponseWriter.run {U : Type} (impl : ResponseWriterImpl U)
    (rw : CustomResponseWriter U) (calls : List Call) : CustomResponseWriter U :=
  calls.foldl (fun acc c => match c with
    | .WriteHeader code => acc.WriteHeader impl code
    | .Write data => acc.Write impl data) rw

/-- The same calls made directly on the underlying writer. -/
def ResponseWriterImpl.run {U : Type} (impl : ResponseWriterImpl U) (u : U)
    (calls : List Call) : U :=
  calls.foldl (fun acc c => match c with
    | .WriteHeader code => impl.WriteHeader acc code
    | .Write data => impl.Write acc data) u

/-- The `net/http` response as an implementation of the interface; a panic of a call
is kept as the state from then on. -/
def netHTTP : ResponseWriterImpl (Except String ResponseWriter) :=
  { WriteHeader := fun u code => match u with
      | .error p => .error p
      | .ok w => w.WriteHeader code
    Write := fun u data => match u with
      | .error p => .error p
      | .ok w => w.Write data }

/-- The status code a call passes to `WriteHeader`, if it is one. -/
def Call.code? : Call → Option Int
  | .WriteHeader code => some code
  | .Write _ => none

/-- Code of the last `WriteHeader` call in a sequence of calls, 200 if there is none. -/
def lastWriteHeader (calls : List Call) : Int :=
  ((calls.filterMap Call.code?).getLast?).getD 200

/-! ## Lemmas on pattern splitting -/

theorem cutAtSpace_eq_none (l : List Char) : cutAtSpace l = none ↔ ' ' ∉ l := by
  induction l with
  | nil => simp [cutAtSpace]
  | cons c cs ih =>
    by_cases hc : c = ' '
    · simp [cutAtSpace, hc]
    · have hc' : ¬ ' ' = c := fun h => hc h.symm
      cases hcut : cutAtSpace cs with
      | none => simp [cutAtSpace, hc, hc', hcut, ih.mp hcut]
      | some ab =>
        have : ¬ (' ' ∉ cs) := fun h => by simp [ih.mpr h] at hcut
        simp [cutAtSpace, hc, hcut, this]

theorem cutAtSpace_append (a b : List Char) (ha : ' ' ∉ a) :
    cutAtSpace (a ++ ' ' :: b) = some (a, b) := by
  induction a with
  | nil => simp [cutAtSpace]
  | cons c cs ih =>
    have hc : c ≠ ' ' := fun h => ha (by simp [h])
    have hcs : ' ' ∉ cs := fun h => ha (by simp [h])
    simp [cutAtSpace, hc, ih hcs]

theorem cutAtSpace_some (l : List Char) (h : ' ' ∈ l) :
    ∃ a b, l = a ++ ' ' :: b ∧ ' ' ∉ a ∧ cutAtSpace l = some (a, b) := by
  induction l with
  | nil => simp at h
  | cons c cs ih =>
    by_cases hc : c = ' '
    · exact ⟨[], cs, by simp [hc], by simp, by simp [cutAtSpace, hc]⟩
    · have hcs : ' ' ∈ cs := by
        rcases List.mem_cons.mp h with h | h
        · exact absurd h.symm hc
        · exact h
      obtain ⟨a, b, hl, ha, hcut⟩ := ih hcs
      refine ⟨c :: a, b, by simp [hl], ?_, by simp [cutAtSpace, hc, hcut]⟩
      intro hmem
      rcases List.mem_cons.mp hmem with h | h
      · exact hc h.symm
      · exact ha h

theorem SplitN2_no_space (pattern : String) (h : ' ' ∉ pattern.data) :
    SplitN2 pattern = [pattern] := by
  simp [SplitN2, (cutAtSpace_eq_none pattern.data).mpr h]

theorem SplitN2_join (method path : String) (h : ' ' ∉ method.data) :
    SplitN2 (method ++ " " ++ path) = [method, path] := by
  have hd : (method ++ " " ++ path).data = method.data ++ ' ' :: path.data := by
    simp [String.data_append]
  simp [SplitN2, hd, cutAtSpace_append _ _ h]

theorem exists_method_path (pattern : String) (h : ' ' ∈ pattern.data) :
    ∃ method path : String, pattern = method ++ " " ++ path ∧ ' ' ∉ method.data := by
  obtain ⟨a, b, hl, ha, _⟩ := cutAtSpace_some pattern.data h
  refine ⟨String.mk a, String.mk b, ?_, ha⟩
  apply String.ext
  simp [String.data_append, hl]

/-! ## Lemmas on registration -/

theorem HandleFunc_no_space {H : Type} (r : Router H) (rules : MuxRules) (st : MuxStore H)
    (pattern : String) (handler : H) (h : ' ' ∉ pattern.data) :
    r.HandleFunc rules st pattern handler =
      { panicked := some (.invalidPattern pattern), router := r, store := st } := by
  simp [Router.HandleFunc, SplitN2_no_space pattern h]

theorem Handle_no_space {H : Type} (r : Router H) (rules : MuxRules) (st : MuxStore H)
    (pattern : String) (handler : H) (h : ' ' ∉ pattern.data) :
    r.Handle rules st pattern handler =
      { panicked := some (.invalidPattern pattern), router := r, store := st } := by
  simp [Router.Handle, SplitN2_no_space pattern h]

theorem HandleFunc_accepted {H : Type} (r : Router H) (rules : MuxRules) (st : MuxStore H)
    (method path : String) (handler : H) (h : ' ' ∉ method.data)
    (hacc : rules ((st r.Mux).map Prod.fst) (method ++ " " ++ r.fullPath path) = true) :
    r.HandleFunc rules st (method ++ " " ++ path) handler =
      { panicked := none, router := r,
        store := fun i => if i = r.Mux then
          st i ++ [(method ++ " " ++ r.fullPath path,
            r.middlewares.foldl (fun h middleware => middleware h) handler)] else st i } := by
  simp [Router.HandleFunc, SplitN2_join method path h, MuxStore.Handle, hacc]

theorem HandleFunc_rejected {H : Type} (r : Router H) (rules : MuxRules) (st : MuxStore H)
    (method path : String) (handler : H) (h : ' ' ∉ method.data)
    (hrej : rules ((st r.Mux).map Prod.fst) (method ++ " " ++ r.fullPath path) = false) :
    r.HandleFunc rules st (method ++ " " ++ path) handler =
      { panicked := some (.serveMux (method ++ " " ++ r.fullPath path)), router := r,
        store := st } := by
  simp [Router.HandleFunc, SplitN2_join method path h, MuxStore.Handle, hrej]

theorem Handle_accepted {H : Type} (r : Router H) (rules : MuxRules) (st : MuxStore H)
    (method path : String) (handler : H) (h : ' ' ∉ method.data)
    (hacc : rules ((st r.Mux).map Prod.fst) (method ++ " " ++ r.fullPath path) = true) :
    r.Handle rules st (method ++ " " ++ path) handler =
      { panicked := none, router := { r with middlewares := r.middlewares.reverse },
        store := fun i => if i = r.Mux then
          st i ++ [(method ++ " " ++ r.fullPath path,
            r.middlewares.reverse.foldl (fun h middleware => middleware h) handler)]
          else st i } := by
  simp [Router.Handle, SplitN2_join method path h, MuxStore.Handle, hacc]

theorem Handle_rejected {H : Type} (r : Router H) (rules : MuxRules) (st : MuxStore H)
    (method path : String) (handler : H) (h : ' ' ∉ method.data)
    (hrej : rules ((st r.Mux).map Prod.fst) (method ++ " " ++ r.fullPath path) = false) :
    r.Handle rules st (method ++ " " ++ path) handler =
      { panicked := some (.serveMux (method ++ " " ++ r.fullPath path)),
        router := { r with middlewares := r.middlewares.reverse }, store := st } := by
  simp [Router.Handle, SplitN2_join method path h, MuxStore.Handle, hrej]

theorem Group_fullPath_nested {H : Type} (s : Server H) (p : String) (parent : Router H)
    (path : String) :
    (s.Group p (some parent)).2.fullPath path = parent.prefix_ ++ p ++ path := by
  unfold Server.Group Router.fullPath
  by_cases h : parent.prefix_ = ""
  · simp [h]
  · simp [h]

theorem Group_fullPath_root {H : Type} (s : Server H) (p : String) (path : String) :
    (s.Group p none).2.fullPath path = p ++ path := by
  simp [Server.Group, Router.fullPath]

/-! ## Lemmas on mounting and dispatch -/

theorem getLast?_cons_getD {α : Type} (a x : α) (l : List α) :
    ((a :: l).getLast?).getD x = (l.getLast?).getD a := by
  cases l with
  | nil => simp
  | cons b t =>
    rw [List.getLast?_cons_cons]
    cases h : (b :: t).getLast? with
    | none => simp at h
    | some v => rfl

theorem run_statusCode {U : Type} (impl : ResponseWriterImpl U) (calls : List Call) :
    ∀ rw : CustomResponseWriter U,
      (rw.run impl calls).statusCode = ((calls.filterMap Call.code?).getLast?).getD rw.statusCode := by
  induction calls with
  | nil => intro rw; simp [CustomResponseWriter.run]
  | cons c cs ih =>
    intro rw
    have hstep := ih
    unfold CustomResponseWriter.run at hstep ⊢
    cases c with
    | WriteHeader code =>
      simp only [List.foldl_cons, List.filterMap_cons, Call.code?]
      rw [hstep, getLast?_cons_getD]
      rfl
    | Write data =>
      simp only [List.foldl_cons, List.filterMap_cons, Call.code?]
      rw [hstep]
      rfl

theorem run_underlying {U : Type} (impl : ResponseWriterImpl U) (calls : List Call) :
    ∀ rw : CustomResponseWriter U,
      (rw.run impl calls).ResponseWriter = impl.run rw.ResponseWriter calls := by
  induction calls with
  | nil => intro rw; rfl
  | cons c cs ih =>
    intro rw
    have hstep := ih
    unfold CustomResponseWriter.run ResponseWriterImpl.run at hstep ⊢
    cases c with
    | WriteHeader code => simp only [List.foldl_cons]; rw [hstep]; rfl
    | Write data => simp only [List.foldl_cons]; rw [hstep]; rfl

theorem Write_status (w : ResponseWriter) (data : String) :
    ∃ w1, w.Write data = .ok w1 ∧ w1.status = some (w.status.getD 200) := by
  cases hs : w.status with
  | none =>
    by_cases hh : w.head = false
    · exact ⟨_, by simp [ResponseWriter.Write, ResponseWriter.WriteHeader, hs,
        bodyAllowedForStatus, hh]; rfl, rfl⟩
    · exact ⟨_, by simp [ResponseWriter.Write, ResponseWriter.WriteHeader, hs,
        bodyAllowedForStatus, hh]; rfl, rfl⟩
  | some code =>
    by_cases hb : bodyAllowedForStatus code = true ∧ w.head = false
    · exact ⟨_, by simp [ResponseWriter.Write, hs, hb]; rfl, by simp [hs]⟩
    · refine ⟨w, ?_, by simp [hs]⟩
      simp only [ResponseWriter.Write, hs, Option.isNone_some]
      rw [if_neg (by simp)]
      simp only [hs]
      rw [if_neg hb]

theorem netHTTP_run_writes (calls : List Call) (hw : ∀ c ∈ calls, Call.code? c = none) :
    ∀ w : ResponseWriter, ∃ w' : ResponseWriter,
      netHTTP.run (.ok w) calls = .ok w' ∧ w'.status.getD 200 = w.status.getD 200 ∧
      (∀ code, w.status = some code → w'.status = some code) := by
  induction calls with
  | nil => intro w; exact ⟨w, rfl, rfl, fun _ h => h⟩
  | cons c cs ih =>
    intro w
    have hcs : ∀ c ∈ cs, Call.code? c = none := fun c hc => hw c (List.mem_cons_of_mem _ hc)
    cases c with
    | WriteHeader code =>
      have := hw (.WriteHeader code) (List.mem_cons_self _ _)
      simp [Call.code?] at this
    | Write data =>
      obtain ⟨w1, hw1, hst1⟩ := Write_status w data
      obtain ⟨w', h1, h2, h3⟩ := ih hcs w1
      refine ⟨w', ?_, ?_, ?_⟩
      · rw [← h1]
        simp [ResponseWriterImpl.run, netHTTP, hw1]
      · rw [h2, hst1]; rfl
      · intro code hc
        exact h3 code (by rw [hst1, hc]; rfl)

/-! ## Lemmas on JSON strings -/

theorem hexValue_hexDigit : ∀ k, k < 16 → hexValue (hexDigit k) = some k := by
  decide

theorem readChar_simple (e ch : Char) (rest : List Char) (he : unescapeSimple e = some ch)
    (hu : e ≠ 'u') : readChar ('\\' :: e :: rest) = some (ch, rest) := by
  simp [readChar, hu, he]

theorem readChar_hex (a b c d : Char) (x3 x2 x1 x0 : Nat) (rest : List Char)
    (ha : hexValue a = some x3) (hb : hexValue b = some x2) (hc : hexValue c = some x1)
    (hd : hexValue d = some x0) (hv : Nat.isValidChar (((x3 * 16 + x2) * 16 + x1) * 16 + x0)) :
    readChar ('\\' :: 'u' :: a :: b :: c :: d :: rest) =
      some (Char.ofNat (((x3 * 16 + x2) * 16 + x1) * 16 + x0), rest) := by
  simp [readChar, ha, hb, hc, hd, hv]

theorem readChar_plain (c : Char) (rest : List Char) (h1 : c ≠ '"') (h2 : c ≠ '\\')
    (h3 : ¬ c.toNat < 32) : readChar (c :: rest) = some (c, rest) := by
  simp [readChar, h1, h2, h3]

theorem readChar_escapeChar (c : Char) (tail : List Char) :
    readChar (escapeChar c ++ tail) = some (c, tail) ∧ escapeChar c ++ tail ≠ ['"'] := by
  have hofNat : ∀ n, c.toNat = n → c = Char.ofNat n := by
    intro n hn; rw [← hn, Char.ofNat_toNat]
  by_cases h1 : c = '"'
  · subst h1
    exact ⟨readChar_simple '"' '"' tail (by decide) (by decide), by simp [escapeChar]⟩
  by_cases h2 : c = '\\'
  · subst h2
    exact ⟨readChar_simple '\\' '\\' tail (by decide) (by decide), by simp [escapeChar]⟩
  by_cases h3 : c.toNat = 8
  · have hc := hofNat 8 h3
    subst hc
    exact ⟨readChar_simple 'b' (Char.ofNat 8) tail (by decide) (by decide), by simp [escapeChar]⟩
  by_cases h4 : c.toNat = 12
  · have hc := hofNat 12 h4
    subst hc
    exact ⟨readChar_simple 'f' (Char.ofNat 12) tail (by decide) (by decide),
      by simp [escapeChar]⟩
  by_cases h5 : c = '\n'
  · subst h5
    exact ⟨readChar_simple 'n' '\n' tail (by decide) (by decide), by simp [escapeChar]⟩
  by_cases h6 : c = '\r'
  · subst h6
    exact ⟨readChar_simple 'r' '\r' tail (by decide) (by decide), by simp [escapeChar]⟩
  by_cases h7 : c = '\t'
  · subst h7
    exact ⟨readChar_simple 't' '\t' tail (by decide) (by decide), by simp [escapeChar]⟩
  by_cases h8 : c.toNat < 32 ∨ c = '<' ∨ c = '>' ∨ c = '&'
  · have hn : c.toNat < 64 := by
      rcases h8 with h | h | h | h
      · omega
      · subst h; decide
      · subst h; decide
      · subst h; decide
    have hv1 := hexValue_hexDigit (c.toNat / 16) (by omega)
    have hv2 := hexValue_hexDigit (c.toNat % 16) (by omega)
    have h0 : hexValue '0' = some 0 := by decide
    have hsum : ((0 * 16 + 0) * 16 + c.toNat / 16) * 16 + c.toNat % 16 = c.toNat := by omega
    have hvalid : Nat.isValidChar (((0 * 16 + 0) * 16 + c.toNat / 16) * 16 + c.toNat % 16) := by
      rw [hsum]; exact Or.inl (by omega)
    have hesc : escapeChar c =
        ['\\', 'u', '0', '0', hexDigit (c.toNat / 16), hexDigit (c.toNat % 16)] := by
      simp only [escapeChar, h1, h2, h3, h4, h5, h6, h7, h8, if_false, if_true]
    rw [hesc]
    refine ⟨?_, by simp⟩
    have := readChar_hex '0' '0' (hexDigit (c.toNat / 16)) (hexDigit (c.toNat % 16)) 0 0
      (c.toNat / 16) (c.toNat % 16) tail h0 h0 hv1 hv2 hvalid
    rw [hsum, Char.ofNat_toNat] at this
    exact this
  by_cases h9 : c.toNat = 0x2028
  · have hc := hofNat 0x2028 h9
    subst hc
    refine ⟨?_, by simp [escapeChar]⟩
    exact readChar_hex '2' '0' '2' '8' 2 0 2 8 tail (by decide) (by decide) (by decide)
      (by decide) (by decide)
  by_cases h10 : c.toNat = 0x2029
  · have hc := hofNat 0x2029 h10
    subst hc
    refine ⟨?_, by simp [escapeChar]⟩
    exact readChar_hex '2' '0' '2' '9' 2 0 2 9 tail (by decide) (by decide) (by decide)
      (by decide) (by decide)
  have hesc : escapeChar c = [c] := by
    simp only [escapeChar, h1, h2, h3, h4, h5, h6, h7, h8, h9, h10, if_false]
  rw [hesc]
  have h32 : ¬ c.toNat < 32 := fun h => h8 (Or.inl h)
  exact ⟨readChar_plain c tail h1 h2 h32, by simp [h1]⟩

theorem unquoteChars_escaped (l : List Char) :
    ∀ fuel, l.length < fuel →
      unquoteChars fuel (l.foldr (fun c acc => escapeChar c ++ acc) [] ++ ['"']) = some l := by
  induction l with
  | nil =>
    intro fuel hf
    cases fuel with
    | zero => omega
    | succ n => simp [unquoteChars]
  | cons c cs ih =>
    intro fuel hf
    cases fuel with
    | zero => omega
    | succ n =>
      have hlen : cs.length < n := by simpa using hf
      obtain ⟨hread, hne⟩ := readChar_escapeChar c
        (cs.foldr (fun c acc => escapeChar c ++ acc) [] ++ ['"'])
      simp only [List.foldr_cons, List.append_assoc, unquoteChars, hne, if_false, hread,
        ih n hlen]

theorem escaped_length (l : List Char) :
    l.length ≤ (l.foldr (fun c acc => escapeChar c ++ acc) []).length := by
  induction l with
  | nil => simp
  | cons c cs ih =>
    have hpos : 0 < (escapeChar c).length := by
      have := (readChar_escapeChar c []).1
      cases h : escapeChar c with
      | nil => rw [h] at this; simp [readChar] at this
      | cons x xs => simp
    simp only [List.foldr_cons, List.length_append, List.length_cons]
    omega

theorem jsonUnquote_jsonString (s : String) : jsonUnquote (jsonString s) = some s := by
  have hd : (jsonString s).data =
      '"' :: (s.data.foldr (fun c acc => escapeChar c ++ acc) [] ++ ['"']) := by
    simp [jsonString, String.data_append]
  have hlen := escaped_length s.data
  simp only [jsonUnquote, hd, if_true]
  rw [unquoteChars_escaped s.data _ (by simp only [List.length_append, List.length_singleton]; omega)]
  rfl

/-! ## Route groups -/

/-- C1: at three levels of nesting the path computed by `fullPath` loses the prefix of
the outermost group: for groups "/internal", "/admin", "/audit" and route "/x" it is
"/admin/audit/x", not "/internal/admin/audit/x"; at two levels ("/internal", "/admin",
"/settings") it is the full concatenation. -/
theorem fullPath_three_levels :
    internalAdminGroup.fullPath "/settings" = "/internal/admin/settings" ∧
    internalAdminAuditGroup.fullPath "/x" = "/admin/audit/x" ∧
    internalAdminAuditGroup.fullPath "/x" ≠ "/internal" ++ "/admin" ++ "/audit" ++ "/x" := by
  decide

/-- C2: with middlewares added in the order m1, m2, `HandleFunc` registers
m2(m1(h)), the last-added middleware outermost, while `Handle` registers m1(m2(h)). -/
theorem handleFunc_order_reversed :
    (v1Group.HandleFunc exampleRules (emptyStore String) "GET /x" "h").store 1 =
      [("GET /v1/x", "m2(m1(h))")] ∧
    (v1Group.Handle exampleRules (emptyStore String) "GET /x" "h").store 1 =
      [("GET /v1/x", "m1(m2(h))")] := by
  decide

/-- C7, as stated, fails: "G@T /x" and "GET /{" contain a space, yet `Handle` and
`HandleFunc` panic inside `r.Mux.Handle` (malformed pattern) and register nothing; so
does the second registration of "GET /hello", which leaves the first one alone. -/
theorem handle_panics_with_space :
    ' ' ∈ "G@T /x".data ∧
    (v1Group.Handle exampleRules (emptyStore String) "G@T /x" "h").panicked =
      some (.serveMux "G@T /v1/x") ∧
    (v1Group.Handle exampleRules (emptyStore String) "G@T /x" "h").store 1 = [] ∧
    ' ' ∈ "GET /\x7b".data ∧
    (v1Group.HandleFunc exampleRules (emptyStore String) "GET /\x7b" "h").panicked =
      some (.serveMux "GET /v1/\x7b") ∧
    (v1Group.HandleFunc exampleRules (emptyStore String) "GET /\x7b" "h").store 1 = [] ∧
    ' ' ∈ "GET /hello".data ∧
    (v1Group.HandleFunc exampleRules
      (v1Group.HandleFunc exampleRules (emptyStore String) "GET /hello" "h").store
      "GET /hello" "h").panicked = some (.serveMux "GET /v1/hello") ∧
    (v1Group.HandleFunc exampleRules
      (v1Group.HandleFunc exampleRules (emptyStore String) "GET /hello" "h").store
      "GET /hello" "h").store 1 = [("GET /v1/hello", "m2(m1(h))")] := by
  decide

/-- C7, amended: `Handle` and `HandleFunc` raise the router's own "invalid pattern"
panic exactly when the pattern has no space, and then leave the mux store as it was; a
pattern with a space is method ++ " " ++ path with no space in method, and
`r.Mux.Handle` is called with method ++ " " ++ fullPath(path): when `net/http` accepts
that pattern the wrapped handler is appended to the registrations of the router's own
mux under exactly it, all other muxes untouched; when `net/http` rejects it the call
panics inside `r.Mux.Handle` and the store is left as it was. -/
theorem handle_pattern_split {H : Type} (r : Router H) (rules : MuxRules) (st : MuxStore H)
    (pattern : String) (handler : H) :
    (((r.HandleFunc rules st pattern handler).panicked = some (.invalidPattern pattern) ↔
        ' ' ∉ pattern.data) ∧
      ((r.Handle rules st pattern handler).panicked = some (.invalidPattern pattern) ↔
        ' ' ∉ pattern.data)) ∧
    (' ' ∉ pattern.data →
      (r.HandleFunc rules st pattern handler).store = st ∧
      (r.Handle rules st pattern handler).store = st) ∧
    (' ' ∈ pattern.data →
      ∃ method path : String, pattern = method ++ " " ++ path ∧ ' ' ∉ method.data ∧
        (rules ((st r.Mux).map Prod.fst) (method ++ " " ++ r.fullPath path) = true →
          (r.HandleFunc rules st pattern handler).panicked = none ∧
          (r.HandleFunc rules st pattern handler).store r.Mux =
            st r.Mux ++ [(method ++ " " ++ r.fullPath path,
              r.middlewares.foldl (fun h middleware => middleware h) handler)] ∧
          (r.Handle rules st pattern handler).panicked = none ∧
          (r.Handle rules st pattern handler).store r.Mux =
            st r.Mux ++ [(method ++ " " ++ r.fullPath path,
              r.middlewares.reverse.foldl (fun h middleware => middleware h) handler)] ∧
          ∀ mux, mux ≠ r.Mux →
            (r.HandleFunc rules st pattern handler).store mux = st mux ∧
            (r.Handle rules st pattern handler).store mux = st mux) ∧
        (rules ((st r.Mux).map Prod.fst) (method ++ " " ++ r.fullPath path) = false →
          (r.HandleFunc rules st pattern handler).panicked =
            some (.serveMux (method ++ " " ++ r.fullPath path)) ∧
          (r.HandleFunc rules st pattern handler).store = st ∧
          (r.Handle rules st pattern handler).panicked =
            some (.serveMux (method ++ " " ++ r.fullPath path)) ∧
          (r.Handle rules st pattern handler).store = st)) := by
  have hsplit : ' ' ∈ pattern.data →
      ∃ method path : String, pattern = method ++ " " ++ path ∧ ' ' ∉ method.data :=
    exists_method_path pattern
  have hown : ∀ (res : Registered H), ' ' ∈ pattern.data →
      (∀ method path : String, pattern = method ++ " " ++ path → ' ' ∉ method.data →
        res.panicked = none ∨
        res.panicked = some (.serveMux (method ++ " " ++ r.fullPath path))) →
      res.panicked ≠ some (.invalidPattern pattern) := by
    intro res hmem hres hp
    obtain ⟨method, path, hpat, hm⟩ := hsplit hmem
    rcases hres method path hpat hm with h | h
    · rw [h] at hp; simp at hp
    · rw [h] at hp; simp at hp
  refine ⟨⟨?_, ?_⟩, ?_, ?_⟩
  · constructor
    · intro hp hmem
      refine hown _ hmem ?_ hp
      intro method path hpat hm
      subst hpat
      cases hacc : rules ((st r.Mux).map Prod.fst) (method ++ " " ++ r.fullPath path) with
      | true => left; rw [HandleFunc_accepted r rules st method path handler hm hacc]
      | false => right; rw [HandleFunc_rejected r rules st method path handler hm hacc]
    · intro hno
      rw [HandleFunc_no_space r rules st pattern handler hno]
  · constructor
    · intro hp hmem
      refine hown _ hmem ?_ hp
      intro method path hpat hm
      subst hpat
      cases hacc : rules ((st r.Mux).map Prod.fst) (method ++ " " ++ r.fullPath path) with
      | true => left; rw [Handle_accepted r rules st method path handler hm hacc]
      | false => right; rw [Handle_rejected r rules st method path handler hm hacc]
    · intro hno
      rw [Handle_no_space r rules st pattern handler hno]
  · intro hno
    rw [HandleFunc_no_space r rules st pattern handler hno,
      Handle_no_space r rules st pattern handler hno]
    exact ⟨rfl, rfl⟩
  · intro hmem
    obtain ⟨method, path, rfl, hm⟩ := hsplit hmem
    refine ⟨method, path, rfl, hm, ?_, ?_⟩
    · intro hacc
      rw [HandleFunc_accepted r rules st method path handler hm hacc,
        Handle_accepted r rules st method path handler hm hacc]
      refine ⟨rfl, by simp, rfl, by simp, ?_⟩
      intro mux hne
      simp [hne]
    · intro hrej
      rw [HandleFunc_rejected r rules st method path handler hm hrej,
        Handle_rejected r rules st method path handler hm hrej]
      exact ⟨rfl, rfl, rfl, rfl⟩

/-- Witness of C7, amended: "GET /hello world" on the group "/v1" is split at its first
space and registered under "GET /v1/hello world"; "GET" alone raises the router's own
panic and registers nothing; "G@T /x" is split and rejected inside `r.Mux.Handle`. -/
theorem handle_pattern_split_witness :
    (' ' ∈ "GET /hello world".data ∧
      ∃ method path : String, "GET /hello world" = method ++ " " ++ path ∧
        ' ' ∉ method.data ∧
        (exampleRules (((emptyStore String) v1Group.Mux).map Prod.fst)
            (method ++ " " ++ v1Group.fullPath path) = true →
          (v1Group.HandleFunc exampleRules (emptyStore String) "GET /hello world" "h").panicked =
            none ∧
          (v1Group.HandleFunc exampleRules (emptyStore String) "GET /hello world" "h").store
              v1Group.Mux =
            (emptyStore String) v1Group.Mux ++ [(method ++ " " ++ v1Group.fullPath path,
              v1Group.middlewares.foldl (fun h middleware => middleware h) "h")] ∧
          (v1Group.Handle exampleRules (emptyStore String) "GET /hello world" "h").panicked =
            none ∧
          (v1Group.Handle exampleRules (emptyStore String) "GET /hello world" "h").store
              v1Group.Mux =
            (emptyStore String) v1Group.Mux ++ [(method ++ " " ++ v1Group.fullPath path,
              v1Group.middlewares.reverse.foldl (fun h middleware => middleware h) "h")] ∧
          ∀ mux, mux ≠ v1Group.Mux →
            (v1Group.HandleFunc exampleRules (emptyStore String) "GET /hello world" "h").store
                mux = (emptyStore String) mux ∧
            (v1Group.Handle exampleRules (emptyStore String) "GET /hello world" "h").store
                mux = (emptyStore String) mux) ∧
        (exampleRules (((emptyStore String) v1Group.Mux).map Prod.fst)
            (method ++ " " ++ v1Group.fullPath path) = false →
          (v1Group.HandleFunc exampleRules (emptyStore String) "GET /hello world" "h").panicked =
            some (.serveMux (method ++ " " ++ v1Group.fullPath path)) ∧
          (v1Group.HandleFunc exampleRules (emptyStore String) "GET /hello world" "h").store =
            emptyStore String ∧
          (v1Group.Handle exampleRules (emptyStore String) "GET /hello world" "h").panicked =
            some (.serveMux (method ++ " " ++ v1Group.fullPath path)) ∧
          (v1Group.Handle exampleRules (emptyStore String) "GET /hello world" "h").store =
            emptyStore String)) ∧
    (' ' ∉ "GET".data ∧
      (v1Group.HandleFunc exampleRules (emptyStore String) "GET" "h").store = emptyStore String ∧
      (v1Group.Handle exampleRules (emptyStore String) "GET" "h").store = emptyStore String) ∧
    exampleRules [] "GET /v1/hello world" = true ∧
    (v1Group.HandleFunc exampleRules (emptyStore String) "GET /hello world" "h").store 1 =
      [("GET /v1/hello world", "m2(m1(h))")] ∧
    (v1Group.HandleFunc exampleRules (emptyStore String) "GET" "h").panicked =
      some (.invalidPattern "GET") ∧
    exampleRules [] "G@T /v1/x" = false ∧
    (v1Group.HandleFunc exampleRules (emptyStore String) "G@T /x" "h").panicked =
      some (.serveMux "G@T /v1/x") :=
  ⟨⟨by decide,
     (handle_pattern_split v1Group exampleRules (emptyStore String) "GET /hello world" "h").2.2
       (by decide)⟩,
   ⟨by decide,
     (handle_pattern_split v1Group exampleRules (emptyStore String) "GET" "h").2.1 (by decide)⟩,
   by decide, by decide, by decide, by decide, by decide⟩

/-- C10: `Handle` reverses the router's middleware list in place: after one `Handle`
on a router with middlewares m1, m2 the list is m2, m1, and a second `Handle` wraps
its handler as m2(m1(h)) where the first wrapped it as m1(m2(h)). -/
theorem handle_reverses_middlewares :
    v1Group.middlewares.map (fun m => m "h") = ["m1(h)", "m2(h)"] ∧
    (v1Group.Handle exampleRules (emptyStore String) "GET /a" "h").router.middlewares.map
        (fun m => m "h") = ["m2(h)", "m1(h)"] ∧
    ((v1Group.Handle exampleRules (emptyStore String) "GET /a" "h").router.Handle exampleRules
        (v1Group.Handle exampleRules (emptyStore String) "GET /a" "h").store "GET /b" "h").store 1 =
      [("GET /v1/a", "m1(m2(h))"), ("GET /v1/b", "m2(m1(h))")] := by
  decide

/-- C3: for a POST, PUT or PATCH request whose body fails to decode with message msg,
the handler answers through `http.Error` alone: status 400, plain-text content type,
body msg followed by the newline `http.Error` appends; the result does not depend on
the business function and the state it acts on is returned untouched, so it was not
invoked. -/
theorem decode_failure_is_400 {σ B Out : Type} (decode : String → Except String B)
    (marshal : Out → Except String String) (f : HandlerFunc σ B Out) (r : Request) (s : σ)
    (msg : String) (hmethod : r.Method = "POST" ∨ r.Method = "PUT" ∨ r.Method = "PATCH")
    (hdecode : decode r.Body = .error msg) :
    NewHandler decode marshal f ResponseWriter.fresh r s =
      (.ok { header := [("Content-Type", "text/plain; charset=utf-8"),
                        ("X-Content-Type-Options", "nosniff")],
             status := some 400,
             sentHeader := [("Content-Type", "text/plain; charset=utf-8"),
                            ("X-Content-Type-Options", "nosniff")],
             body := msg ++ "\n" }, s) := by
  have hbody : ("" : String) ++ (msg ++ "\n") = msg ++ "\n" := by
    apply String.ext; simp [String.data_append]
  have hreq : decodeRequest decode r = .error msg := by
    simp only [decodeRequest, hmethod, hdecode, if_true]
  simp only [NewHandler, hreq]
  simp [Error, ResponseWriter.SetHeader, ResponseWriter.fresh, Header.Set,
    ResponseWriter.WriteHeader, ResponseWriter.Write, bodyAllowedForStatus, hbody]

/-- Witness of C3: a POST with body "{" is answered 400 with body "EOF" and a newline,
and the invocation counter of the business function stays 0. -/
theorem decode_failure_is_400_witness :
    (("POST" = "POST" ∨ "POST" = "PUT" ∨ "POST" = "PATCH") ∧ decodeUnit "\x7b" = .error "EOF") ∧
    NewHandler decodeUnit marshalUnit (failingHandler "db unavailable") ResponseWriter.fresh
        { Method := "POST", Path := "/users", Body := "\x7b", Context := [] } 0 =
      (.ok { header := [("Content-Type", "text/plain; charset=utf-8"),
                        ("X-Content-Type-Options", "nosniff")],
             status := some 400,
             sentHeader := [("Content-Type", "text/plain; charset=utf-8"),
                            ("X-Content-Type-Options", "nosniff")],
             body := "EOF" ++ "\n" }, 0) :=
  ⟨⟨by decide, by decide⟩,
   decode_failure_is_400 decodeUnit marshalUnit (failingHandler "db unavailable")
     { Method := "POST", Path := "/users", Body := "\x7b", Context := [] } 0 "EOF"
     (by decide) (by decide)⟩

/-- C4: for the plain error "db unavailable" the handler writes status 500 and the
JSON object, and then the `http.Error` call that follows appends the message once
more as plain text: the body is the JSON line followed by "db unavailable". -/
theorem plain_error_body_written_twice :
    (NewHandler decodeUnit marshalUnit (failingHandler "db unavailable") ResponseWriter.fresh
        { Method := "GET", Path := "/users", Body := "", Context := [] } 0).1 =
      .ok { header := [("Content-Type", "text/plain; charset=utf-8"),
                       ("X-Content-Type-Options", "nosniff")],
            status := some 500,
            sentHeader := [],
            body := "\x7b\"error\":\"db unavailable\"\x7d\ndb unavailable\n" } := by
  decide

/-- C5, as stated, fails for valid status codes: with status 103 the handler's
`WriteHeader(103)` sends an interim response and the status of the response is 200;
with status 204 the status is written and the JSON body is dropped; and for a HEAD
request the status 404 is written and no body reaches the client. -/
theorem structured_error_status_or_body_lost :
    (NewHandler decodeUnit marshalUnit
        (structuredFailingHandler { StatusCode := 103, Message := "early", Code := 0 })
        (ResponseWriter.forRequest "GET")
        { Method := "GET", Path := "/x", Body := "", Context := [] } 0).1 =
      .ok { header := [("Content-Type", "application/json")],
            status := some 200,
            sentHeader := [("Content-Type", "application/json")],
            body := "\x7b\"message\":\"early\"\x7d\n",
            interim := [103] } ∧
    (NewHandler decodeUnit marshalUnit
        (structuredFailingHandler { StatusCode := 204, Message := "gone", Code := 0 })
        (ResponseWriter.forRequest "GET")
        { Method := "GET", Path := "/x", Body := "", Context := [] } 0).1 =
      .ok { header := [("Content-Type", "application/json")],
            status := some 204,
            sentHeader := [],
            body := "" } ∧
    (NewHandler decodeUnit marshalUnit
        (structuredFailingHandler { StatusCode := 404, Message := "not found", Code := 0 })
        (ResponseWriter.forRequest "HEAD")
        { Method := "HEAD", Path := "/x", Body := "", Context := [] } 0).1 =
      .ok { header := [("Content-Type", "application/json")],
            status := some 404,
            sentHeader := [],
            body := "",
            head := true } := by
  decide

/-- C5, amended: when the business function, called with the request value the handler
built, returns the structured error e: if e.StatusCode is a final status code (101, or
200 to 999) the handler writes exactly e.StatusCode as the response status; if moreover
the status permits a body (200 to 999 other than 204 and 304) and the request is not a
HEAD request, the body is the JSON object whose "message" member is a JSON string that
reads back as e.Message, with a "code" member of value e.Code only when e.Code is not
zero, followed by the newline the encoder appends; the status code is not in the
body. -/
theorem structured_error_response {σ B Out : Type} (decode : String → Except String B)
    (marshal : Out → Except String String) (f : HandlerFunc σ B Out) (r : Request) (s s' : σ)
    (e : ErrorResponse) (funcIn : FuncReq B)
    (hreq : decodeRequest decode r = .ok funcIn)
    (hf : f r.Context funcIn s = (.error (.errorResponse e), s')) :
    (e.StatusCode = 101 ∨ (200 ≤ e.StatusCode ∧ e.StatusCode ≤ 999) →
      ∃ w, NewHandler decode marshal f (ResponseWriter.forRequest r.Method) r s = (.ok w, s') ∧
        w.status = some e.StatusCode) ∧
    (200 ≤ e.StatusCode ∧ e.StatusCode ≤ 999 → e.StatusCode ≠ 204 → e.StatusCode ≠ 304 →
      r.Method ≠ "HEAD" →
      ∃ w q, NewHandler decode marshal f (ResponseWriter.forRequest r.Method) r s = (.ok w, s') ∧
        w.status = some e.StatusCode ∧
        jsonUnquote q = some e.Message ∧
        w.body = "\x7b\"message\":" ++ q ++
          (if e.Code ≠ 0 then ",\"code\":" ++ toString e.Code else "") ++ "\x7d" ++ "\n") := by
  have hbody : ∀ t : String, ("" : String) ++ t = t := by
    intro t; apply String.ext; simp [String.data_append]
  constructor
  · intro hcode
    have h1 : ¬ (e.StatusCode < 100 ∨ e.StatusCode > 999) := by omega
    have h2 : ¬ (100 ≤ e.StatusCode ∧ e.StatusCode ≤ 199 ∧ e.StatusCode ≠ 101) := by omega
    simp only [NewHandler, hreq, hf]
    obtain ⟨w1, hw1, hst⟩ := Write_status
      ({ ResponseWriter.forRequest r.Method with
          status := some e.StatusCode,
          sentHeader := (ResponseWriter.forRequest r.Method).header }.SetHeader
        "Content-Type" "application/json") (e.marshal ++ "\n")
    refine ⟨w1, ?_, by simpa [ResponseWriter.SetHeader] using hst⟩
    simp only [ResponseWriter.WriteHeader, ResponseWriter.forRequest, h1, h2, if_false, Encode]
    simp only [ResponseWriter.forRequest] at hw1
    rw [hw1]
  · intro hcode h204 h304 hhead
    have h1 : ¬ (e.StatusCode < 100 ∨ e.StatusCode > 999) := by omega
    have h2 : ¬ (100 ≤ e.StatusCode ∧ e.StatusCode ≤ 199 ∧ e.StatusCode ≠ 101) := by omega
    have h3 : ¬ (100 ≤ e.StatusCode ∧ e.StatusCode ≤ 199) := by omega
    refine ⟨{ header := [("Content-Type", "application/json")], status := some e.StatusCode,
              sentHeader := [], body := e.marshal ++ "\n" },
      jsonString e.Message, ?_, rfl, jsonUnquote_jsonString e.Message, ?_⟩
    · simp only [NewHandler, hreq, hf]
      simp [Encode, ResponseWriter.SetHeader, ResponseWriter.forRequest, Header.Set,
        ResponseWriter.WriteHeader, ResponseWriter.Write, bodyAllowedForStatus, hbody, h1, h2,
        h3, h204, h304, hhead]
    · simp [ErrorResponse.marshal]

/-- Witness of C5, amended: `findUserHandler`, which reads the path of the request it is
given, answers GET /users/7 with a structured 404; the response has status 404 and the
body {"message":"no user at \u003c/users/7\u003e"}; status 404 with message "not found"
gives the body {"message":"not found"}; and a message with a quote, a backslash, a
control character, a newline, a tab and the characters the encoder escapes for HTML,
with code 7, is written escaped, followed by the code. -/
theorem structured_error_response_witness :
    (decodeRequest decodeUnit
        { Method := "GET", Path := "/users/7", Body := "", Context := [] } =
        .ok { Body := none,
              Request := { Method := "GET", Path := "/users/7", Body := "", Context := [] },
              HasBody := false } ∧
      findUserHandler []
        { Body := none,
          Request := { Method := "GET", Path := "/users/7", Body := "", Context := [] },
          HasBody := false } 0 =
        (.error (.errorResponse
          { StatusCode := 404, Message := "no user at </users/7>", Code := 0 }), 1) ∧
      ((200 : Int) ≤ 404 ∧ (404 : Int) ≤ 999) ∧ (404 : Int) ≠ 204 ∧ (404 : Int) ≠ 304 ∧
      "GET" ≠ "HEAD") ∧
    (∃ w q, NewHandler decodeUnit marshalUnit findUserHandler (ResponseWriter.forRequest "GET")
          { Method := "GET", Path := "/users/7", Body := "", Context := [] } 0 = (.ok w, 1) ∧
        w.status = some 404 ∧
        jsonUnquote q = some "no user at </users/7>" ∧
        w.body = "\x7b\"message\":" ++ q ++
          (if (0 : Int) ≠ 0 then ",\"code\":" ++ toString (0 : Int) else "") ++ "\x7d" ++ "\n") ∧
    (NewHandler decodeUnit marshalUnit findUserHandler (ResponseWriter.forRequest "GET")
        { Method := "GET", Path := "/users/7", Body := "", Context := [] } 0).1 =
      .ok { header := [("Content-Type", "application/json")],
            status := some 404,
            sentHeader := [],
            body := "\x7b\"message\":\"no user at \\u003c/users/7\\u003e\"\x7d\n" } ∧
    (NewHandler decodeUnit marshalUnit
        (structuredFailingHandler { StatusCode := 404, Message := "not found", Code := 0 })
        (ResponseWriter.forRequest "GET")
        { Method := "GET", Path := "/users/7", Body := "", Context := [] } 0).1 =
      .ok { header := [("Content-Type", "application/json")],
            status := some 404,
            sentHeader := [],
            body := "\x7b\"message\":\"not found\"\x7d\n" } ∧
    (NewHandler decodeUnit marshalUnit
        (structuredFailingHandler
          { StatusCode := 422, Message := "a\"b\\c<d>e&f\n\r\t\x01\x08\x0cg", Code := 7 })
        (ResponseWriter.forRequest "GET")
        { Method := "GET", Path := "/users/7", Body := "", Context := [] } 0).1 =
      .ok { header := [("Content-Type", "application/json")],
            status := some 422,
            sentHeader := [],
            body := "\x7b\"message\":\"a\\\"b\\\\c\\u003cd\\u003ee\\u0026f\\n\\r\\t\\u0001\\b\\fg\"," ++
              "\"code\":7\x7d\n" } :=
  ⟨⟨rfl, rfl, by decide, by decide, by decide, by decide⟩,
   (structured_error_response decodeUnit marshalUnit findUserHandler
     { Method := "GET", Path := "/users/7", Body := "", Context := [] } 0 1
     { StatusCode := 404, Message := "no user at </users/7>", Code := 0 }
     { Body := none,
       Request := { Method := "GET", Path := "/users/7", Body := "", Context := [] },
       HasBody := false } rfl rfl).2 (by decide) (by decide) (by decide) (by decide),
   by decide, by decide, by decide⟩

/-- C6: for GET /v2/users the handler built from `getUsersV2Handler` writes nothing:
`HasBody` is never set, so the response writer is returned as it was received, with
no Content-Type and an empty body, although the output marshals to the JSON array. -/
theorem success_output_not_written :
    NewHandler decodeUnit marshalUsersV2 getUsersV2Handler ResponseWriter.fresh
        { Method := "GET", Path := "/v2/users", Body := "", Context := [] } () =
      (.ok { header := [], status := none, sentHeader := [], body := "" }, ()) ∧
    (match (getUsersV2Handler []
        { Body := none,
          Request := { Method := "GET", Path := "/v2/users", Body := "", Context := [] },
          HasBody := false } ()).1 with
      | .ok out => marshalUsersV2 out
      | .error _ => .error "") =
      .ok ("[\x7b\"id\":1,\"name\":\"Alice\",\"email\":\"alice@example.com\",\"version\":\"v2\"\x7d," ++
        "\x7b\"id\":2,\"name\":\"Bob\",\"email\":\"bob@example.com\",\"version\":\"v2\"\x7d]") := by
  decide

/-! ## Status capture -/

/-- C9, as stated, fails: after `WriteHeader(404)` and `WriteHeader(500)` on the wrapper
the status on the wire is 404 (the first call wins) and `StatusCode()` returns 500;
after `Write` and `WriteHeader(500)` the wire has 200 and `StatusCode()` returns 500. -/
theorem statusCode_not_wire_status :
    ((NewResponseWriter (Except.ok ResponseWriter.fresh)).run netHTTP
        [.WriteHeader 404, .WriteHeader 500]).StatusCode = 500 ∧
    ((NewResponseWriter (Except.ok ResponseWriter.fresh)).run netHTTP
        [.WriteHeader 404, .WriteHeader 500]).ResponseWriter =
      .ok { header := [], status := some 404, sentHeader := [], body := "" } ∧
    ((NewResponseWriter (Except.ok ResponseWriter.fresh)).run netHTTP
        [.Write "ok", .WriteHeader 500]).StatusCode = 500 ∧
    ((NewResponseWriter (Except.ok ResponseWriter.fresh)).run netHTTP
        [.Write "ok", .WriteHeader 500]).ResponseWriter =
      .ok { header := [], status := some 200, sentHeader := [], body := "ok" } := by
  decide

/-- C9, amended: after any sequence of calls `StatusCode()` is the code of the last
`WriteHeader` call on the wrapper, 200 if there was none, and the underlying writer
has received exactly the same calls; on a `net/http` response that is the status on
the wire when no `WriteHeader` was called, and when `WriteHeader` was the first call,
with a final status code, and was not called again. -/
theorem statusCode_is_last_writeHeader {U : Type} (impl : ResponseWriterImpl U) (u : U)
    (calls : List Call) :
    ((NewResponseWriter u).run impl calls).StatusCode = lastWriteHeader calls ∧
    ((NewResponseWriter u).run impl calls).ResponseWriter = impl.run u calls ∧
    ((∀ c ∈ calls, Call.code? c = none) →
      ∃ w, ((NewResponseWriter (Except.ok ResponseWriter.fresh)).run netHTTP calls).ResponseWriter
          = .ok w ∧
        w.status.getD 200 =
          ((NewResponseWriter (Except.ok ResponseWriter.fresh)).run netHTTP calls).StatusCode) ∧
    (∀ code rest, calls = .WriteHeader code :: rest → (∀ c ∈ rest, Call.code? c = none) →
      200 ≤ code ∧ code ≤ 999 →
      ∃ w, ((NewResponseWriter (Except.ok ResponseWriter.fresh)).run netHTTP calls).ResponseWriter
          = .ok w ∧
        w.status =
          some ((NewResponseWriter (Except.ok ResponseWriter.fresh)).run netHTTP calls).StatusCode) := by
  refine ⟨?_, ?_, ?_, ?_⟩
  · exact run_statusCode impl calls (NewResponseWriter u)
  · exact run_underlying impl calls (NewResponseWriter u)
  · intro hw
    obtain ⟨w, h1, h2, _⟩ := netHTTP_run_writes calls hw ResponseWriter.fresh
    refine ⟨w, ?_, ?_⟩
    · rw [run_underlying]; exact h1
    · have hs := run_statusCode netHTTP calls (NewResponseWriter (Except.ok ResponseWriter.fresh))
      have hnil : calls.filterMap Call.code? = [] := by
        rw [List.filterMap_eq_nil_iff]; exact hw
      rw [h2]
      unfold CustomResponseWriter.StatusCode
      rw [hs, hnil]
      rfl
  · intro code rest hcalls hrest hcode
    subst hcalls
    have h1 : ¬ (code < 100 ∨ code > 999) := by omega
    have h2 : ¬ (100 ≤ code ∧ code ≤ 199 ∧ code ≠ 101) := by omega
    obtain ⟨w, hrun, _, hst⟩ := netHTTP_run_writes rest hrest
      { header := [], status := some code, sentHeader := [], body := "" }
    have hs := run_statusCode netHTTP (.WriteHeader code :: rest)
      (NewResponseWriter (Except.ok ResponseWriter.fresh))
    have hnil : rest.filterMap Call.code? = [] := by
      rw [List.filterMap_eq_nil_iff]; exact hrest
    refine ⟨w, ?_, ?_⟩
    · rw [run_underlying, ← hrun]
      simp [ResponseWriterImpl.run, netHTTP, NewResponseWriter, ResponseWriter.WriteHeader,
        ResponseWriter.fresh, h1, h2]
    · unfold CustomResponseWriter.StatusCode
      rw [hs]
      simp only [List.filterMap_cons, Call.code?, hnil]
      rw [hst code rfl]
      rfl

/-- Witness of C9, amended: `WriteHeader(404)` followed by a `Write` leaves 404 both on
the wire and in `StatusCode()`; a `Write` alone leaves 200 in both. -/
theorem statusCode_is_last_writeHeader_witness :
    ((∀ c ∈ [Call.Write "not found"], Call.code? c = none) ∧
      (200 : Int) ≤ 404 ∧ (404 : Int) ≤ 999 ∧
      ∃ w, ((NewResponseWriter (Except.ok ResponseWriter.fresh)).run netHTTP
          [.WriteHeader 404, .Write "not found"]).ResponseWriter = .ok w ∧
        w.status = some ((NewResponseWriter (Except.ok ResponseWriter.fresh)).run netHTTP
          [.WriteHeader 404, .Write "not found"]).StatusCode) ∧
    ((∀ c ∈ [Call.Write "ok"], Call.code? c = none) ∧
      ∃ w, ((NewResponseWriter (Except.ok ResponseWriter.fresh)).run netHTTP
          [.Write "ok"]).ResponseWriter = .ok w ∧
        w.status.getD 200 = ((NewResponseWriter (Except.ok ResponseWriter.fresh)).run netHTTP
          [.Write "ok"]).StatusCode) :=
  ⟨⟨by decide, by decide, by decide,
     (statusCode_is_last_writeHeader netHTTP (Except.ok ResponseWriter.fresh)
       [.WriteHeader 404, .Write "not found"]).2.2.2 404 [.Write "not found"] rfl
       (by decide) (by decide)⟩,
   ⟨by decide,
     (statusCode_is_last_writeHeader netHTTP (Except.ok ResponseWriter.fresh)
       [.Write "ok"]).2.2.1 (by decide)⟩⟩

end RestEasy
